import Mathlib

/-!
Verification of the entity-postprocessing pipeline of `streamlit_app.py`
(biomedical NER app).  Python strings are modelled as `List Char`
(ASCII-faithful for the data the pipeline handles); Python dictionaries of
the recognition results are modelled as a structure with optional label
fields; the Python `set` of recognized diseases is modelled as a
duplicate-free list built with insert-if-absent; the `[0]` indexing that can
raise `IndexError` is modelled with `Option`.
-/

set_option maxHeartbeats 1000000

namespace BioNer

/-- Whitespace characters recognised by Python `str.strip`. -/
def isPySpace (c : Char) : Bool :=
  c = ' ' || c = '\t' || c = '\n' || c = '\r' || c = '\x0b' || c = '\x0c'

/-- Python `str.strip()`: drop leading and trailing whitespace. -/
def pyStrip (l : List Char) : List Char :=
  ((l.dropWhile isPySpace).reverse.dropWhile isPySpace).reverse

/-- Python `str.lower()` (ASCII model). -/
def pyLower (l : List Char) : List Char := l.map Char.toLower

/-- Python `str.capitalize()`: upper-case the first character, lower-case the
rest (ASCII model). -/
def pyCapitalize : List Char → List Char
  | [] => []
  | c :: rest => c.toUpper :: rest.map Char.toLower

/-- Python `token.startswith("##")`. -/
def isCont (t : List Char) : Bool :=
  match t with
  | c1 :: c2 :: _ => c1 = '#' && c2 = '#'
  | _ => false

/-- A fragment with its 2-character continuation marker removed when it
carries one (`token[2:]` in the marked case, the token itself otherwise). -/
def stripMarker (t : List Char) : List Char :=
  if isCont t then t.drop 2 else t

/-- The loop body of `detokenize_wordpieces` (lines 30-39 of
`streamlit_app.py`): `current` is the `current_word` accumulator. -/
def detokLoop : List (List Char) → List Char → List (List Char)
  | [], current => if current = [] then [] else [current]
  | t :: rest, current =>
    if isCont t then
      detokLoop rest (current ++ t.drop 2)
    else if current = [] then
      detokLoop rest t
    else
      current :: detokLoop rest t

/-- `detokenize_wordpieces(tokens)` from `streamlit_app.py` lines 26-41. -/
def detokenize_wordpieces (tokens : List (List Char)) : List (List Char) :=
  detokLoop tokens []

/-- Python `s.replace("##", "")`: delete all (leftmost, non-overlapping)
occurrences of the continuation marker, as done at the per-entity call site
(line 102 of `streamlit_app.py`). -/
def removeHash : List Char → List Char
  | [] => []
  | [c] => [c]
  | c1 :: c2 :: rest =>
    if c1 = '#' ∧ c2 = '#' then removeHash rest
    else c1 :: removeHash (c2 :: rest)

/-- One recognition result: the surface fragment and the two optional label
fields the code probes with `entity.get("entity", entity.get("entity_group",
"Unknown"))`. -/
structure RawEntity where
  word : List Char
  entity : Option (List Char)
  entity_group : Option (List Char)
deriving DecidableEq, Repr

/-- One row of the displayed entity table. -/
structure MergedEntity where
  word : List Char
  entityType : List Char
deriving DecidableEq, Repr

/-- `EXCLUDED_TERMS` (line 65 of `streamlit_app.py`). -/
def EXCLUDED_TERMS : List (List Char) :=
  ["ecg".toList, "troponin".toList, "examination".toList, "sars - cov - 2".toList]

/-- `DISEASE_OVERRIDES` (line 68 of `streamlit_app.py`). -/
def DISEASE_OVERRIDES : List (List Char) :=
  ["hypertension".toList, "type 2 diabetes mellitus".toList]

/-- The canonical disease label the override forces. -/
def diseaseDisorderLabel : List Char := "Disease_disorder".toList

/-- The word built for one raw entity at line 102:
`detokenize_wordpieces([entity["word"].replace("##", "")])[0]`.
`none` models the `IndexError` raised when the list is empty. -/
def mergedWord (e : RawEntity) : Option (List Char) :=
  (detokenize_wordpieces [removeHash e.word]).head?

/-- `entity.get("entity", entity.get("entity_group", "Unknown"))` (line 103). -/
def rawLabel (e : RawEntity) : List Char :=
  e.entity.getD (e.entity_group.getD ("Unknown".toList))

/-- The effective entity type after the override check (lines 105-106). -/
def effType (e : RawEntity) (w : List Char) : List Char :=
  if pyLower w ∈ DISEASE_OVERRIDES then diseaseDisorderLabel else rawLabel e

/-- Auxiliary for Python's substring test: does `hay` start with `needle`? -/
def startsWithList : List Char → List Char → Bool
  | [], _ => true
  | _ :: _, [] => false
  | a :: as, b :: bs => a = b && startsWithList as bs

/-- Python's `needle in hay` substring test on strings. -/
def containsSub (needle : List Char) : List Char → Bool
  | [] => startsWithList needle []
  | c :: rest => startsWithList needle (c :: rest) || containsSub needle rest

/-- `any(keyword in entity_type.lower() for keyword in ["disease", "disorder"])`
(line 108). -/
def isDiseaseCat (t : List Char) : Bool :=
  containsSub ("disease".toList) (pyLower t) || containsSub ("disorder".toList) (pyLower t)

/-- Python `set.add` on the duplicate-free-list model of
`recognized_diseases`. -/
def addDisease (s : List (List Char)) (w : List Char) : List (List Char) :=
  if w ∈ s then s else s ++ [w]

/-- The body of the per-entity loop (lines 101-111): compute the word (may
fail), apply the override, conditionally add to the disease set, and append
the table row. -/
def stepEntity (st : List (List Char) × List MergedEntity) (e : RawEntity) :
    Option (List (List Char) × List MergedEntity) :=
  match mergedWord e with
  | none => none
  | some w =>
    let ty := effType e w
    let ds := if isDiseaseCat ty = true ∧ pyLower w ∉ EXCLUDED_TERMS
              then addDisease st.1 (pyLower w) else st.1
    some (ds, st.2 ++ [⟨w, ty⟩])

/-- Run the per-entity loop over the whole recognition result list. -/
def runEntities : List RawEntity → List (List Char) × List MergedEntity →
    Option (List (List Char) × List MergedEntity)
  | [], st => some st
  | e :: rest, st =>
    match stepEntity st e with
    | none => none
    | some st2 => runEntities rest st2

/-- The whole per-entity loop started from the empty disease set and empty
entity table (lines 98-111). -/
def processResults (results : List RawEntity) :
    Option (List (List Char) × List MergedEntity) :=
  runEntities results ([], [])

/-- `disease.replace("-", " ").capitalize()` (line 45). -/
def cleanedName (disease : List Char) : List Char :=
  pyCapitalize (disease.map (fun c => if c = '-' then ' ' else c))

/-- The prompt string built at lines 47-49. -/
def promptFor (cleaned : List Char) : List Char :=
  "List only the drug names used to treat ".toList ++ cleaned ++
    ", separated by commas. No explanations, just drug names.".toList

/-- The placeholder returned when the response text is empty (line 50). -/
def noRecommendations : List Char := "No recommendations found".toList

/-- `get_drug_recommendation(disease)` (lines 44-50), with the generation
service abstracted as a function from the prompt to the optional response
text (`none` models an absent/`None` text field). -/
def get_drug_recommendation (gen : List Char → Option (List Char))
    (disease : List Char) : List Char :=
  match gen (promptFor (cleanedName disease)) with
  | some t => if t = [] then noRecommendations else pyStrip t
  | none => noRecommendations

/-- The recommendation loop at lines 121-123: one lookup per disease in the
set, each displayed next to its disease. -/
def recommendationLoop (gen : List Char → Option (List Char))
    (ds : List (List Char)) : List (List Char × List Char) :=
  ds.map (fun d => (d, get_drug_recommendation gen d))

/-- Observable effects of one run of the Analyze-Text handler: which texts
were sent to the recognition model, which prompts were sent to the
generation service, the displayed table (`none` when the info message shows
instead), the displayed recommendations, and whether the warning showed. -/
structure RunLog where
  nerCalls : List (List Char)
  genPrompts : List (List Char)
  shownTable : Option (List MergedEntity)
  shownRecs : List (List Char × List Char)
  warned : Bool
deriving DecidableEq, Repr

/-- The tab-1 Analyze-Text handler (lines 95-125; the tab-2 file handler,
lines 131-160, has identical logic on the extracted text).  `ner` and `gen`
abstract the two external services; `none` models the uncaught
`IndexError`. -/
def analyzeTextHandler (ner : List Char → List RawEntity)
    (gen : List Char → Option (List Char)) (text : List Char) : Option RunLog :=
  if pyStrip text = [] then
    some ⟨[], [], none, [], true⟩
  else
    match processResults (ner text) with
    | none => none
    | some (ds, ents) =>
      some ⟨[text],
            ds.map (fun d => promptFor (cleanedName d)),
            if ents = [] then none else some ents,
            recommendationLoop gen ds,
            false⟩

/-- Decidable form of the DiseaseSet element invariant: lower-cased,
non-empty, and not excluded. -/
def validDisease (w : List Char) : Bool :=
  decide (pyLower w = w) && decide (w ≠ []) && decide (w ∉ EXCLUDED_TERMS)

/-- Prop-level invariant of the disease set carried through the loop. -/
def diseaseInvariant (s : List (List Char)) : Prop :=
  (∀ w ∈ s, pyLower w = w ∧ w ≠ [] ∧ w ∉ EXCLUDED_TERMS) ∧ s.Nodup

/-- Prop-level invariant of the displayed records: overridden words always
carry the canonical disease label. -/
def recordsInvariant (l : List MergedEntity) : Prop :=
  ∀ r ∈ l, pyLower r.word ∈ DISEASE_OVERRIDES → r.entityType = diseaseDisorderLabel

/-- A recognition oracle returning no entities (used for concrete runs). -/
def noNer : List Char → List RawEntity := fun _ => []

/-- A generation oracle whose response text is always absent. -/
def noGen : List Char → Option (List Char) := fun _ => none

/-- A concrete generation oracle: a non-empty drug list for asthma, an empty
response text for everything else. -/
def genExample (p : List Char) : Option (List Char) :=
  if p = promptFor (cleanedName ("asthma".toList)) then
    some ("  aspirin, salbutamol ".toList)
  else
    some []

/-- A second concrete generation oracle agreeing with `genExample` on the
asthma prompt but with absent response text elsewhere. -/
def genExampleB (p : List Char) : Option (List Char) :=
  if p = promptFor (cleanedName ("asthma".toList)) then
    some ("  aspirin, salbutamol ".toList)
  else
    none

/-! ## Lemmas about the word-merge step -/

theorem detokLoop_join : ∀ (tokens : List (List Char)) (current : List Char),
    (detokLoop tokens current).flatten = current ++ (tokens.map stripMarker).flatten := by
  intro tokens
  induction tokens with
  | nil =>
    intro current
    by_cases h : current = []
    · simp [detokLoop, h]
    · simp [detokLoop, h]
  | cons t rest ih =>
    intro current
    cases hc : isCont t with
    | true =>
      simp only [detokLoop, hc, if_true, List.map_cons, List.flatten_cons]
      rw [ih]
      simp [stripMarker, hc, List.append_assoc]
    | false =>
      by_cases hcur : current = []
      · simp only [detokLoop, hc, Bool.false_eq_true, if_false, hcur, if_true]
        rw [ih]
        simp [stripMarker, hc]
      · simp only [detokLoop, hc, Bool.false_eq_true, if_false, hcur, List.flatten_cons]
        rw [ih]
        simp [stripMarker, hc, List.append_assoc]

/-- C1: token reassembly is content-preserving: concatenating the words
output by `detokenize_wordpieces` equals concatenating the input fragments
in order, with the 2-character continuation marker stripped from each
fragment that carries it. -/
theorem detok_content_preserving (tokens : List (List Char)) :
    (detokenize_wordpieces tokens).flatten = (tokens.map stripMarker).flatten := by
  simpa [detokenize_wordpieces] using detokLoop_join tokens []

theorem detokLoop_ne_nil : ∀ (tokens : List (List Char)) (current w : List Char),
    w ∈ detokLoop tokens current → w ≠ [] := by
  intro tokens
  induction tokens with
  | nil =>
    intro current w hw
    by_cases h : current = []
    · simp [detokLoop, h] at hw
    · simp [detokLoop, h] at hw
      rw [hw]
      exact h
  | cons t rest ih =>
    intro current w hw
    cases hc : isCont t with
    | true =>
      simp only [detokLoop, hc, if_true] at hw
      exact ih _ w hw
    | false =>
      by_cases hcur : current = []
      · simp only [detokLoop, hc, Bool.false_eq_true, if_false, hcur, if_true] at hw
        exact ih _ w hw
      · simp only [detokLoop, hc, Bool.false_eq_true, if_false, hcur, List.mem_cons] at hw
        rcases hw with h1 | h2
        · rw [h1]; exact hcur
        · exact ih _ w h2

theorem detokLoop_length : ∀ (tokens : List (List Char)) (current : List Char),
    current ≠ [] → (∀ t ∈ tokens, stripMarker t ≠ []) →
    (detokLoop tokens current).length = 1 + tokens.countP (fun t => !(isCont t)) := by
  intro tokens
  induction tokens with
  | nil =>
    intro current hcur _
    simp [detokLoop, hcur]
  | cons t rest ih =>
    intro current hcur hall
    cases hc : isCont t with
    | true =>
      have hne : current ++ t.drop 2 ≠ [] := by
        intro h
        exact hcur (List.append_eq_nil.mp h).1
      simp only [detokLoop, hc, if_true, List.countP_cons]
      rw [ih _ hne (fun x hx => hall x (List.mem_cons_of_mem _ hx))]
      simp [hc]
    | false =>
      have ht : t ≠ [] := by
        have := hall t (List.mem_cons_self t rest)
        simpa [stripMarker, hc] using this
      simp only [detokLoop, hc, Bool.false_eq_true, if_false, hcur, List.countP_cons,
        List.length_cons]
      rw [ih t ht (fun x hx => hall x (List.mem_cons_of_mem _ hx))]
      simp [hc]
      omega

/-- C2 counterexample: the fragment sequence ["##a", "b"] starts with a
continuation fragment, yet the word-merge step outputs 2 words, not 1; and
the sequence [""] has one non-continuation fragment but 0 output words, so
the count formula also fails on empty fragments. -/
theorem detok_count_counterexample :
    (isCont ("##a".toList) = true ∧
      (detokenize_wordpieces ["##a".toList, "b".toList]).length = 2 ∧
      (detokenize_wordpieces ["##a".toList, "b".toList]).length ≠ 1) ∧
      (isCont ([] : List Char) = false ∧
        (detokenize_wordpieces [([] : List Char)]).length = 0 ∧
        (detokenize_wordpieces [([] : List Char)]).length ≠ 1) := by
  decide

/-- C2 amended: for fragment sequences in which every fragment is non-empty
after stripping its continuation marker, the number of output words equals
the number of fragments not starting with "##", plus one if the sequence
starts with a continuation fragment. -/
theorem detok_count_amended (tokens : List (List Char))
    (h : ∀ t ∈ tokens, stripMarker t ≠ []) :
    (detokenize_wordpieces tokens).length =
      tokens.countP (fun t => !(isCont t)) +
        (if (tokens.head?.map isCont).getD false then 1 else 0) := by
  cases tokens with
  | nil => simp [detokenize_wordpieces, detokLoop]
  | cons t rest =>
    cases hc : isCont t with
    | true =>
      have ht : t.drop 2 ≠ [] := by
        have := h t (List.mem_cons_self t rest)
        simpa [stripMarker, hc] using this
      simp only [detokenize_wordpieces, detokLoop, hc, if_true, List.nil_append]
      rw [detokLoop_length rest (t.drop 2) ht
        (fun x hx => h x (List.mem_cons_of_mem _ hx))]
      simp [List.countP_cons, hc]
      omega
    | false =>
      have ht : t ≠ [] := by
        have := h t (List.mem_cons_self t rest)
        simpa [stripMarker, hc] using this
      simp only [detokenize_wordpieces, detokLoop, hc, Bool.false_eq_true, if_false, if_true]
      rw [detokLoop_length rest t ht
        (fun x hx => h x (List.mem_cons_of_mem _ hx))]
      simp [List.countP_cons, hc]
      omega

/-- C2 amended witness: a concrete fragment sequence satisfying the
hypothesis, evaluated. -/
theorem detok_count_amended_witness :
    (detokenize_wordpieces ["##ab".toList, "cd".toList, "##ef".toList]).length = 2 :=
  detok_count_amended ["##ab".toList, "cd".toList, "##ef".toList] (by decide)

/-! ## Lemmas about the per-entity word computation -/

theorem removeHash_cons_of_ne (c : Char) (h : ¬ c = '#') (rest : List Char) :
    removeHash (c :: rest) = c :: removeHash rest := by
  cases rest with
  | nil => simp [removeHash]
  | cons c2 r2 =>
    have : ¬ (c = '#' ∧ c2 = '#') := fun hx => h hx.1
    simp [removeHash, this]

theorem isCont_removeHash : ∀ l : List Char, isCont (removeHash l) = false
  | [] => by simp [removeHash, isCont]
  | [c] => by simp [removeHash, isCont]
  | c1 :: c2 :: rest => by
    by_cases h : c1 = '#' ∧ c2 = '#'
    · rw [show removeHash (c1 :: c2 :: rest) = removeHash rest from by
        simp [removeHash, h]]
      exact isCont_removeHash rest
    · rw [show removeHash (c1 :: c2 :: rest) = c1 :: removeHash (c2 :: rest) from by
        simp [removeHash, h]]
      by_cases h1 : c1 = '#'
      · have h2 : ¬ c2 = '#' := fun hc2 => h ⟨h1, hc2⟩
        rw [removeHash_cons_of_ne c2 h2 rest]
        simp [isCont, h2]
      · cases hr : removeHash (c2 :: rest) with
        | nil => simp [isCont]
        | cons x xs => simp [isCont, h1]

theorem detok_singleton (t : List Char) :
    detokenize_wordpieces [t] = if stripMarker t = [] then [] else [stripMarker t] := by
  cases hc : isCont t with
  | true => simp [detokenize_wordpieces, detokLoop, stripMarker, hc]
  | false => simp [detokenize_wordpieces, detokLoop, stripMarker, hc]

/-- C10 counterexample: a raw entity word consisting only of continuation
markers makes the word-merge output empty, so the `[0]` indexing at the
call site fails (modelled as `none`) and the whole loop aborts. -/
theorem merged_word_counterexample :
    mergedWord ⟨"####".toList, some ("History".toList), none⟩ = none ∧
      processResults [⟨"####".toList, some ("History".toList), none⟩] = none := by
  decide

/-- C10 amended: the first element of the word-merge output at the
per-entity call site exists exactly when the raw entity word is non-empty
after deleting all "##" occurrences, and is then that (non-empty) deletion;
for raw words that are empty or consist only of continuation markers the
indexing fails. -/
theorem merged_word_amended (e : RawEntity) :
    mergedWord e =
      if removeHash e.word = [] then none else some (removeHash e.word) := by
  have h2 : stripMarker (removeHash e.word) = removeHash e.word := by
    simp [stripMarker, isCont_removeHash]
  have h1 := detok_singleton (removeHash e.word)
  rw [h2] at h1
  unfold mergedWord
  rw [h1]
  by_cases h : removeHash e.word = []
  · simp [h]
  · simp [h]

/-! ## Character-level lemmas -/

theorem toNat_ofNat_ascii (m : Nat) (h1 : 65 ≤ m) (h2 : m ≤ 122) :
    (Char.ofNat m).toNat = m := by
  interval_cases m <;> decide

theorem toLower_toLower (c : Char) : c.toLower.toLower = c.toLower := by
  by_cases h : c.toNat ≥ 65 ∧ c.toNat ≤ 90
  · have he : c.toLower = Char.ofNat (c.toNat + 32) := by
      unfold Char.toLower
      rw [if_pos h]
    have hn : (Char.ofNat (c.toNat + 32)).toNat = c.toNat + 32 :=
      toNat_ofNat_ascii _ (by omega) (by omega)
    rw [he]
    unfold Char.toLower
    rw [if_neg]
    rw [hn]
    omega
  · have he : c.toLower = c := by
      unfold Char.toLower
      rw [if_neg h]
    rw [he, he]

theorem pyLower_idem (l : List Char) : pyLower (pyLower l) = pyLower l := by
  induction l with
  | nil => rfl
  | cons c rest ih =>
    simp only [pyLower, List.map_cons] at ih ⊢
    rw [toLower_toLower]
    rw [ih]

theorem toUpper_ne_hyphen (c : Char) (h : ¬ c = '-') : ¬ c.toUpper = '-' := by
  by_cases hc : c.toNat ≥ 97 ∧ c.toNat ≤ 122
  · have he : c.toUpper = Char.ofNat (c.toNat - 32) := by
      unfold Char.toUpper
      rw [if_pos hc]
    have hn : (Char.ofNat (c.toNat - 32)).toNat = c.toNat - 32 :=
      toNat_ofNat_ascii _ (by omega) (by omega)
    rw [he]
    intro heq
    rw [heq] at hn
    have h45 : ('-').toNat = 45 := by decide
    omega
  · have he : c.toUpper = c := by
      unfold Char.toUpper
      rw [if_neg hc]
    rw [he]
    exact h

theorem toLower_ne_hyphen (c : Char) (h : ¬ c = '-') : ¬ c.toLower = '-' := by
  by_cases hc : c.toNat ≥ 65 ∧ c.toNat ≤ 90
  · have he : c.toLower = Char.ofNat (c.toNat + 32) := by
      unfold Char.toLower
      rw [if_pos hc]
    have hn : (Char.ofNat (c.toNat + 32)).toNat = c.toNat + 32 :=
      toNat_ofNat_ascii _ (by omega) (by omega)
    rw [he]
    intro heq
    rw [heq] at hn
    have h45 : ('-').toNat = 45 := by decide
    omega
  · have he : c.toLower = c := by
      unfold Char.toLower
      rw [if_neg hc]
    rw [he]
    exact h

theorem hyphenToSpace_ne (c : Char) : ¬ (if c = '-' then ' ' else c) = '-' := by
  by_cases h : c = '-'
  · simp [h]
  · simp [h]

/-! ## The drug-name cleaning step (C4) -/

/-- C4 counterexample: the disease "graft - versus - host disease" enters
DiseaseSet on a concrete run, and its normalized name contains two
consecutive space characters, so no whitespace collapsing happens. -/
theorem cleaned_name_double_space :
    processResults [⟨"graft - versus - host disease".toList,
        some ("Disease_disorder".toList), none⟩] =
      some (["graft - versus - host disease".toList],
        [⟨"graft - versus - host disease".toList, "Disease_disorder".toList⟩]) ∧
      containsSub ([' ', ' '])
        (cleanedName ("graft - versus - host disease".toList)) = true := by
  decide

/-- C4 amended: the normalized disease name replaces each hyphen with a
space and capitalizes the first character (no whitespace collapsing): it has
the same length as the disease string, never contains a hyphen, and its
first character is the upper-cased hyphen-replacement of the disease's first
character. -/
theorem cleaned_name_amended (d : List Char) :
    (cleanedName d).length = d.length ∧
      '-' ∉ cleanedName d ∧
      (cleanedName d).head? =
        d.head?.map (fun c => (if c = '-' then ' ' else c).toUpper) := by
  refine ⟨?_, ?_, ?_⟩
  · cases d with
    | nil => rfl
    | cons c rest => simp [cleanedName, pyCapitalize]
  · cases d with
    | nil => simp [cleanedName, pyCapitalize]
    | cons c rest =>
      simp only [cleanedName, List.map_cons, pyCapitalize, List.map_map]
      intro hmem
      rcases List.mem_cons.mp hmem with h | h
      · exact toUpper_ne_hyphen _ (hyphenToSpace_ne c) h.symm
      · rw [List.mem_map] at h
        obtain ⟨b, hb, hba⟩ := h
        exact toLower_ne_hyphen _ (hyphenToSpace_ne b) hba
  · cases d with
    | nil => rfl
    | cons c rest => simp [cleanedName, pyCapitalize]

/-! ## The per-entity pipeline does not merge consecutive fragments (C3) -/

/-- C3: evaluating the per-entity loop on the recognition results
[{word: "hyper", label: "History"}, {word: "##tension", label: "History"}]:
the code produces the two separate table rows "hyper" and "tension", both
still labeled "History", and adds nothing to DiseaseSet — it never builds
the merged word "hypertension", because each entity's word is passed to
`detokenize_wordpieces` alone with its markers already deleted. -/
theorem pipeline_no_merge_eval :
    processResults [⟨"hyper".toList, some ("History".toList), none⟩,
        ⟨"##tension".toList, some ("History".toList), none⟩] =
      some ([], [⟨"hyper".toList, "History".toList⟩,
        ⟨"tension".toList, "History".toList⟩]) := by
  decide

/-! ## Invariants of the per-entity loop -/

theorem stepEntity_none (st : List (List Char) × List MergedEntity) (e : RawEntity)
    (hw : mergedWord e = none) : stepEntity st e = none := by
  unfold stepEntity
  rw [hw]

theorem stepEntity_eq_some (st : List (List Char) × List MergedEntity) (e : RawEntity)
    (w : List Char) (hw : mergedWord e = some w) :
    stepEntity st e =
      some ((if isDiseaseCat (effType e w) = true ∧ pyLower w ∉ EXCLUDED_TERMS
             then addDisease st.1 (pyLower w) else st.1),
            st.2 ++ [⟨w, effType e w⟩]) := by
  unfold stepEntity
  rw [hw]

theorem mergedWord_ne_nil (e : RawEntity) (w : List Char)
    (h : mergedWord e = some w) : w ≠ [] := by
  unfold mergedWord at h
  have hmem : w ∈ detokenize_wordpieces [removeHash e.word] := by
    cases hd : detokenize_wordpieces [removeHash e.word] with
    | nil => rw [hd] at h; cases h
    | cons x xs =>
      rw [hd] at h
      simp only [List.head?_cons, Option.some.injEq] at h
      rw [h]
      exact List.mem_cons_self w xs
  exact detokLoop_ne_nil _ _ w hmem

theorem effType_override (e : RawEntity) (w : List Char)
    (h : pyLower w ∈ DISEASE_OVERRIDES) : effType e w = diseaseDisorderLabel := by
  unfold effType
  rw [if_pos h]

theorem runEntities_mono : ∀ (results : List RawEntity) (st out : List (List Char) × List MergedEntity),
    runEntities results st = some out → ∀ r ∈ st.2, r ∈ out.2 := by
  intro results
  induction results with
  | nil =>
    intro st out h r hr
    simp only [runEntities, Option.some.injEq] at h
    rw [← h]
    exact hr
  | cons e rest ih =>
    intro st out h r hr
    cases hw : mergedWord e with
    | none =>
      rw [runEntities, stepEntity_none st e hw] at h
      cases h
    | some w =>
      rw [runEntities, stepEntity_eq_some st e w hw] at h
      apply ih _ out h
      exact List.mem_append_left _ hr

theorem runEntities_record : ∀ (results : List RawEntity) (st out : List (List Char) × List MergedEntity),
    runEntities results st = some out →
    ∀ e ∈ results, ∀ w, mergedWord e = some w →
      (⟨w, effType e w⟩ : MergedEntity) ∈ out.2 := by
  intro results
  induction results with
  | nil =>
    intro st out h e he
    exact absurd he (List.not_mem_nil e)
  | cons e0 rest ih =>
    intro st out h e he w hw
    cases hw0 : mergedWord e0 with
    | none =>
      rw [runEntities, stepEntity_none st e0 hw0] at h
      cases h
    | some w0 =>
      rw [runEntities, stepEntity_eq_some st e0 w0 hw0] at h
      rcases List.mem_cons.mp he with rfl | hmem
      · have hww : w0 = w := by
          rw [hw] at hw0
          exact (Option.some.inj hw0).symm
        rw [← hww]
        apply runEntities_mono rest _ out h
        simp
      · exact ih _ out h e hmem w hw

theorem stepEntity_diseaseInv (st : List (List Char) × List MergedEntity) (e : RawEntity)
    (w : List Char) (hw : mergedWord e = some w) (hinv : diseaseInvariant st.1) :
    diseaseInvariant
      (if isDiseaseCat (effType e w) = true ∧ pyLower w ∉ EXCLUDED_TERMS
       then addDisease st.1 (pyLower w) else st.1) := by
  by_cases hg : isDiseaseCat (effType e w) = true ∧ pyLower w ∉ EXCLUDED_TERMS
  · rw [if_pos hg]
    unfold addDisease
    by_cases hmem : pyLower w ∈ st.1
    · rw [if_pos hmem]
      exact hinv
    · rw [if_neg hmem]
      constructor
      · intro x hx
        rcases List.mem_append.mp hx with hx1 | hx2
        · exact hinv.1 x hx1
        · have hxw : x = pyLower w := by simpa using hx2
          rw [hxw]

          refine ⟨pyLower_idem w, ?_, hg.2⟩
          have hwne : w ≠ [] := mergedWord_ne_nil e w hw
          simp [pyLower, hwne]
      · refine List.Nodup.append hinv.2 (List.nodup_singleton _) ?_
        intro x hx1 hx2
        have hxw : x = pyLower w := by simpa using hx2
        rw [hxw] at hx1
        exact hmem hx1
  · rw [if_neg hg]
    exact hinv

theorem runEntities_diseaseInv : ∀ (results : List RawEntity) (st out : List (List Char) × List MergedEntity),
    runEntities results st = some out → diseaseInvariant st.1 → diseaseInvariant out.1 := by
  intro results
  induction results with
  | nil =>
    intro st out h hinv
    simp only [runEntities, Option.some.injEq] at h
    rw [← h]
    exact hinv
  | cons e rest ih =>
    intro st out h hinv
    cases hw : mergedWord e with
    | none =>
      rw [runEntities, stepEntity_none st e hw] at h
      cases h
    | some w =>
      rw [runEntities, stepEntity_eq_some st e w hw] at h
      exact ih _ out h (stepEntity_diseaseInv st e w hw hinv)

theorem runEntities_recordsInv : ∀ (results : List RawEntity) (st out : List (List Char) × List MergedEntity),
    runEntities results st = some out → recordsInvariant st.2 → recordsInvariant out.2 := by
  intro results
  induction results with
  | nil =>
    intro st out h hinv
    simp only [runEntities, Option.some.injEq] at h
    rw [← h]
    exact hinv
  | cons e rest ih =>
    intro st out h hinv
    cases hw : mergedWord e with
    | none =>
      rw [runEntities, stepEntity_none st e hw] at h
      cases h
    | some w =>
      rw [runEntities, stepEntity_eq_some st e w hw] at h
      apply ih _ out h
      intro r hr hov
      rcases List.mem_append.mp hr with hr1 | hr2
      · exact hinv r hr1 hov
      · have hre : r = ⟨w, effType e w⟩ := by simpa using hr2
        rw [hre]
        rw [hre] at hov
        exact effType_override e w hov

/-! ## The classification and filtering claims -/

/-- C5: override precedence: every record in the displayed entity list whose
lower-cased word is in DISEASE_OVERRIDES carries the canonical disease
label, regardless of the label the recognition model produced. -/
theorem override_precedence (results : List RawEntity)
    (out : List (List Char) × List MergedEntity)
    (h : processResults results = some out) (r : MergedEntity) (hr : r ∈ out.2)
    (hov : pyLower r.word ∈ DISEASE_OVERRIDES) :
    r.entityType = diseaseDisorderLabel := by
  have hinv : recordsInvariant out.2 := by
    apply runEntities_recordsInv results ([], []) out h
    intro r' hr'
    exact absurd hr' (List.not_mem_nil r')
  exact hinv r hr hov

/-- C5 witness: the entity "Hypertension" labeled "History" by the model is
displayed with the forced label. -/
theorem override_precedence_witness :
    (⟨"Hypertension".toList, "Disease_disorder".toList⟩ : MergedEntity).entityType
      = diseaseDisorderLabel :=
  override_precedence
    [⟨"Hypertension".toList, some ("History".toList), none⟩]
    (["hypertension".toList], [⟨"Hypertension".toList, "Disease_disorder".toList⟩])
    (by decide)
    ⟨"Hypertension".toList, "Disease_disorder".toList⟩
    (by decide) (by decide)

/-- C6: exclusion precedence: an entity whose lower-cased merged word is in
EXCLUDED_TERMS never contributes to the disease set, yet its record still
appears in the displayed entity list. -/
theorem exclusion_precedence (results : List RawEntity)
    (out : List (List Char) × List MergedEntity) (e : RawEntity) (w : List Char)
    (h : processResults results = some out) (he : e ∈ results)
    (hw : mergedWord e = some w) (hx : pyLower w ∈ EXCLUDED_TERMS) :
    pyLower w ∉ out.1 ∧ (⟨w, effType e w⟩ : MergedEntity) ∈ out.2 := by
  constructor
  · intro hmem
    have hinv : diseaseInvariant out.1 := by
      apply runEntities_diseaseInv results ([], []) out h
      exact ⟨fun x hx' => absurd hx' (List.not_mem_nil x), List.nodup_nil⟩
    exact (hinv.1 _ hmem).2.2 hx
  · exact runEntities_record results ([], []) out h e he w hw

/-- C6 witness: "ECG" labeled "Disease_disorder" is kept out of the disease
set but shown in the table. -/
theorem exclusion_precedence_witness :
    pyLower ("ECG".toList) ∉ ([] : List (List Char)) ∧
      (⟨"ECG".toList,
          effType ⟨"ECG".toList, some ("Disease_disorder".toList), none⟩
            ("ECG".toList)⟩ : MergedEntity) ∈
        [(⟨"ECG".toList, "Disease_disorder".toList⟩ : MergedEntity)] :=
  exclusion_precedence
    [⟨"ECG".toList, some ("Disease_disorder".toList), none⟩]
    ([], [⟨"ECG".toList, "Disease_disorder".toList⟩])
    ⟨"ECG".toList, some ("Disease_disorder".toList), none⟩
    ("ECG".toList)
    (by decide) (by decide) (by decide) (by decide)

/-- C7: DiseaseSet invariant: after any successful run of the per-entity
loop, every element of the disease set is a lower-cased, non-empty,
non-excluded word, and no word appears twice. -/
theorem disease_set_invariant (results : List RawEntity)
    (out : List (List Char) × List MergedEntity)
    (h : processResults results = some out) :
    out.1.all validDisease = true ∧ out.1.Nodup := by
  have hinv : diseaseInvariant out.1 := by
    apply runEntities_diseaseInv results ([], []) out h
    exact ⟨fun x hx' => absurd hx' (List.not_mem_nil x), List.nodup_nil⟩
  constructor
  · rw [List.all_eq_true]
    intro w hw
    obtain ⟨h1, h2, h3⟩ := hinv.1 w hw
    simp [validDisease, h1, h2, h3]
  · exact hinv.2

/-- C7 witness: two case-variants of "asthma" in the input yield the single
lower-cased entry "asthma". -/
theorem disease_set_invariant_witness :
    (["asthma".toList] : List (List Char)).all validDisease = true ∧
      (["asthma".toList] : List (List Char)).Nodup :=
  disease_set_invariant
    [⟨"Asthma".toList, some ("Disease_disorder".toList), none⟩,
     ⟨"ASTHMA".toList, some ("Disease_disorder".toList), none⟩]
    (["asthma".toList],
     [⟨"Asthma".toList, "Disease_disorder".toList⟩,
      ⟨"ASTHMA".toList, "Disease_disorder".toList⟩])
    (by decide)

/-! ## The handler on empty input (C8) -/

/-- C8: for every input text that strips to nothing, the handler performs no
recognition call, no generation call, shows no table and no
recommendations, and reports exactly the warning state — whatever the two
external services would have answered. -/
theorem empty_input_no_processing (ner : List Char → List RawEntity)
    (gen : List Char → Option (List Char)) (text : List Char)
    (h : pyStrip text = []) :
    analyzeTextHandler ner gen text = some ⟨[], [], none, [], true⟩ := by
  unfold analyzeTextHandler
  rw [if_pos h]

/-- C8 witness: a concrete whitespace-only input. -/
theorem empty_input_no_processing_witness :
    analyzeTextHandler noNer noGen ("  \t ".toList) = some ⟨[], [], none, [], true⟩ :=
  empty_input_no_processing noNer noGen ("  \t ".toList) (by decide)

/-! ## The drug-lookup results (C9) -/

/-- C9: for every disease in the set fed to the recommendation loop: when
its generation response text is non-empty, the displayed result is that text
trimmed; when its response text is empty or absent, the displayed result is
the fixed placeholder; and its result is unchanged under any other
generation oracle agreeing on that one disease's prompt, so other diseases'
(possibly empty) responses cannot affect it. -/
theorem drug_lookup_results (gen gen2 : List Char → Option (List Char))
    (ds : List (List Char)) (d t : List Char) (hd : d ∈ ds)
    (hagree : gen2 (promptFor (cleanedName d)) = gen (promptFor (cleanedName d))) :
    (gen (promptFor (cleanedName d)) = some t ∧ t ≠ [] →
        (d, pyStrip t) ∈ recommendationLoop gen ds) ∧
      (gen (promptFor (cleanedName d)) = some [] ∨
          gen (promptFor (cleanedName d)) = none →
        (d, noRecommendations) ∈ recommendationLoop gen ds) ∧
      get_drug_recommendation gen2 d = get_drug_recommendation gen d := by
  refine ⟨?_, ?_, ?_⟩
  · rintro ⟨hg, ht⟩
    have e1 : get_drug_recommendation gen d = pyStrip t := by
      unfold get_drug_recommendation
      rw [hg]
      simp [ht]
    unfold recommendationLoop
    rw [← e1]
    exact List.mem_map_of_mem _ hd
  · intro hg
    have e2 : get_drug_recommendation gen d = noRecommendations := by
      unfold get_drug_recommendation
      rcases hg with hg | hg
      · rw [hg]
        simp
      · rw [hg]
    unfold recommendationLoop
    rw [← e2]
    exact List.mem_map_of_mem _ hd
  · unfold get_drug_recommendation
    rw [hagree]

/-- C9 witness: DiseaseSet = asthma and gout; under `genExample` asthma's
response is a non-empty drug list with surrounding whitespace and every
other response text is empty; `genExampleB` answers asthma identically and
nothing else. -/
theorem drug_lookup_results_witness :
    ((genExample (promptFor (cleanedName ("asthma".toList))) =
          some ("  aspirin, salbutamol ".toList) ∧
        ("  aspirin, salbutamol ".toList : List Char) ≠ [] →
        ("asthma".toList, pyStrip ("  aspirin, salbutamol ".toList)) ∈
          recommendationLoop genExample ["asthma".toList, "gout".toList]) ∧
      (genExample (promptFor (cleanedName ("asthma".toList))) = some [] ∨
          genExample (promptFor (cleanedName ("asthma".toList))) = none →
        ("asthma".toList, noRecommendations) ∈
          recommendationLoop genExample ["asthma".toList, "gout".toList]) ∧
      get_drug_recommendation genExampleB ("asthma".toList) =
        get_drug_recommendation genExample ("asthma".toList)) :=
  drug_lookup_results genExample genExampleB
    ["asthma".toList, "gout".toList] ("asthma".toList)
    ("  aspirin, salbutamol ".toList) (by decide) (by decide)

end BioNer
